import Mathlib

/-!
Shallow embedding of the token verifier of `s00rk/firebase-verify-token`
(file `token_verifier.go`), together with theorems settling the claims
about it.

Modelling conventions:
- Go's `(T, error)` returns become `Except VErr T`; `error VErr` carries
  which failure occurred so distinct error paths stay distinguishable.
- JSON decoding (`encoding/json`), base64 decoding of a segment combined
  with JSON decoding (the `decode` helper), SHA-256 and RSA-PKCS1v15
  verification (`crypto`), and PEM/X.509 key parsing are external
  primitives; they are fields of an environment record (`GoEnv`,
  `KeyEnv`) so every theorem is parametric in their behaviour.
- `time.Now().Unix()` inside `verifyTimestamps` is the field `nowUnix`
  (the two consecutive calls in the Go code are collapsed to one
  instant); `time.Now()` in the key source is the field `nowNanos`,
  an instant measured in nanoseconds, and `time.Time.After` is strict
  `<` on those instants, exactly as in Go.
- The key source's mutex is dropped: the model is the sequential body
  of `Keys`/`refreshKeys`, written as explicit state passing on
  `httpKeySource`.
- Timestamps are Go `int64`; where the code does arithmetic on them
  (`verifyTimestamps`) the model wraps the result into `[-2^63, 2^63)`
  with `wrapInt64`, matching Go's wrapping signed arithmetic.
-/

/-- A JSON value, as produced by decoding a claim segment into a generic
`map[string]interface{}` in Go. Only the keys of the top-level object
matter to the claims; the values are carried faithfully. -/
inductive JsonVal where
  | null
  | bool (b : Bool)
  | num (n : Int)
  | str (s : String)
  | arr (elems : List JsonVal)
  | obj (fields : List (String × JsonVal))

/-- Every distinct error return of the Go code. `contentWrapped` is the
`fmt.Errorf` wrapping that `VerifyToken` applies to content-validation
errors (appending the documentation URL). -/
inductive VErr where
  | projectIDUnavailable
  | emptyTokenString
  | incorrectSegments
  | decodeFailure (msg : String)
  | expectedCustomToken
  | noKidHeader
  | invalidAlgorithm (alg : String)
  | invalidAudience (aud : String)
  | invalidIssuer (iss : String)
  | emptySubject
  | subjectTooLong
  | issuedAtFuture (iat : Int)
  | expiredAt (exp : Int)
  | signatureVerifyFailed
  | rsaVerifyFailed
  | newRequestFailed (msg : String)
  | httpDoFailed (msg : String)
  | invalidResponse (status : Nat) (body : String)
  | keyParseFailure (msg : String)
  | parseIntFailure (s : String)
  | missingMaxAge
  | contentWrapped (e : VErr)
  deriving Repr, DecidableEq

/-- `FirebaseInfo` struct (file `token.go`): provider data embedded in a
decoded token. -/
structure FirebaseInfo where
  SignInProvider : String
  Tenant : String
  Identities : List (String × JsonVal)

/-- `Token` struct (file `token.go`): the decoded claim set. `Claims`
has JSON tag `-` in Go, so it is never populated by the decoder; the
verifier fills it in `verifyContent`. -/
structure Token where
  AuthTime : Int
  Issuer : String
  Audience : String
  Expires : Int
  IssuedAt : Int
  Subject : String
  UID : String
  Firebase : FirebaseInfo
  Claims : List (String × JsonVal)

/-- `jwtHeader` struct (file `token.go`). The Go field `Type` is named
`Typ` here because `Type` is reserved in Lean. -/
structure jwtHeader where
  Algorithm : String
  Typ : String
  KeyID : String
  deriving Repr, DecidableEq

/-- `publicKey.Key` is a `*rsa.PublicKey`: modulus and exponent. The RSA
arithmetic itself stays abstract (`GoEnv.rsaVerifyPKCS1v15`). -/
structure rsaPublicKey where
  N : Nat
  E : Nat
  deriving Repr, DecidableEq

/-- `publicKey` struct: a parsed RSA public key with its key ID. -/
structure publicKey where
  Kid : String
  Key : rsaPublicKey
  deriving Repr, DecidableEq

/-- The external primitives `VerifyToken` and its stages call, plus the
ambient time and the outcome of the single `keySource.Keys` call made
during one verification. Each decode field models the Go helper
`decode(segment, &target)` (base64url + JSON) at one target type. -/
structure GoEnv where
  decodeHeader : String → Except VErr jwtHeader
  decodeToken : String → Except VErr Token
  decodeMap : String → Except VErr (List (String × JsonVal))
  b64UrlDecode : String → Except VErr (List Nat)
  sha256 : String → List Nat
  rsaVerifyPKCS1v15 : rsaPublicKey → List Nat → List Nat → Bool
  keysResult : Except VErr (List publicKey)
  nowUnix : Int

/-- `tokenVerifier` struct. The `keySource` field is represented by
`GoEnv.keysResult` (the outcome of the one `Keys` call). -/
structure tokenVerifier where
  shortName : String
  articledShortName : String
  docURL : String
  projectID : String
  issuerPrefix : String

def clockSkewSeconds : Int := 300

def firebaseAudience : String :=
  "https://identitytoolkit.googleapis.com/google.identity.identitytoolkit.v1.IdentityToolkit"

def idTokenIssuerPrefix : String := "https://securetoken.google.com/"

def sessionCookieIssuerPrefix : String := "https://session.firebase.google.com/"

/-- `true` on `ok`, `false` on `error`: Go's `err == nil` test. -/
def exOk {ε α : Type} : Except ε α → Bool
  | Except.ok _ => true
  | Except.error _ => false

/-- `strings.Split` on a one-character separator, over the character
list: the result is the list of maximal separator-free runs, always
non-empty ("" splits to [""]). -/
def splitOnCharList (c : Char) : List Char → List (List Char)
  | [] => [[]]
  | a :: t =>
    match splitOnCharList c t with
    | [] => [[]]
    | h :: r => if a = c then [] :: h :: r else (a :: h) :: r

/-- `strings.Split(s, sep)` for the one-character separators used by
this code (`"."` and `","`). -/
def goSplit (s : String) (c : Char) : List String :=
  (splitOnCharList c s.data).map String.mk

/-- `strings.TrimSpace`: drop whitespace from both ends. -/
def goTrim (s : String) : String :=
  String.mk
    (((s.data.dropWhile Char.isWhitespace).reverse.dropWhile
        Char.isWhitespace).reverse)

/-- `strings.HasPrefix` over character lists (first argument is the
candidate prefix). -/
def hasPrefixChars : List Char → List Char → Bool
  | [], _ => true
  | _ :: _, [] => false
  | a :: t, b :: u => a == b && hasPrefixChars t u

/-- `strings.HasPrefix s pre`. -/
def goHasPrefix (s pre : String) : Bool :=
  hasPrefixChars pre.data s.data

/-- The byte slice `s[n:]` for the one use site, where the first `n`
bytes are ASCII, so slicing `n` bytes equals dropping `n` characters. -/
def goDrop (s : String) (n : Nat) : String :=
  String.mk (s.data.drop n)

/-- The list of registered claim names deleted from the generic claim
map in `verifyContent` (token_verifier.go:157). -/
def standardClaims : List String := ["iss", "aud", "exp", "iat", "sub", "uid"]

/-- Go's `delete(m, name)` on the decoded claim map. -/
def deleteClaim (m : List (String × JsonVal)) (name : String) :
    List (String × JsonVal) :=
  m.filter (fun p => p.fst != name)

/-- The loop at token_verifier.go:157-159: delete each registered claim
name from the generic claim map. -/
def removeStandardClaims (m : List (String × JsonVal)) : List (String × JsonVal) :=
  standardClaims.foldl deleteClaim m

/-- Key lookup in the decoded claim map (Go map membership). -/
def containsKey (m : List (String × JsonVal)) (name : String) : Bool :=
  m.any (fun p => p.fst == name)

/-- `tokenVerifier.verifyContent` (token_verifier.go:105-163). The Go
local `segments` is written out as `goSplit token '.'` at each use;
`segments[0]`/`segments[1]` are total here (`getD`) but only reached
after the length-3 check, exactly as in Go. -/
def verifyContent (tv : tokenVerifier) (env : GoEnv) (token : String) :
    Except VErr Token :=
  if (goSplit token '.').length ≠ 3 then Except.error VErr.incorrectSegments
  else
    match GoEnv.decodeHeader env ((goSplit token '.').getD 0 "") with
    | Except.error e => Except.error e
    | Except.ok header =>
      match GoEnv.decodeToken env ((goSplit token '.').getD 1 "") with
      | Except.error e => Except.error e
      | Except.ok payload =>
        if header.KeyID = "" then
          if payload.Audience = firebaseAudience then
            Except.error VErr.expectedCustomToken
          else Except.error VErr.noKidHeader
        else if header.Algorithm ≠ "RS256" then
          Except.error (VErr.invalidAlgorithm header.Algorithm)
        else if payload.Audience ≠ tv.projectID then
          Except.error (VErr.invalidAudience payload.Audience)
        else if payload.Issuer ≠ tokenVerifier.issuerPrefix tv ++ tv.projectID then
          Except.error (VErr.invalidIssuer payload.Issuer)
        else if payload.Subject = "" then Except.error VErr.emptySubject
        else if 128 < (payload.Subject).utf8ByteSize then
          Except.error VErr.subjectTooLong
        else
          match GoEnv.decodeMap env ((goSplit token '.').getD 1 "") with
          | Except.error e => Except.error e
          | Except.ok customClaims =>
            Except.ok { payload with
              UID := payload.Subject
              Claims := removeStandardClaims customClaims }

/-- Go's wrapping signed 64-bit arithmetic: reduce an integer into
`[-2^63, 2^63)` modulo `2^64`. -/
def wrapInt64 (n : Int) : Int := (n + 2 ^ 63) % 2 ^ 64 - 2 ^ 63

/-- `tokenVerifier.verifyTimestamps` (token_verifier.go:165-172). The
fields `IssuedAt` and `Expires` are Go `int64`, so the subtraction and
addition of the skew wrap on overflow (`wrapInt64`): e.g. an `exp` of
`2^63 - 1` makes `Expires + 300` wrap negative and the token is
rejected as expired. -/
def verifyTimestamps (tv : tokenVerifier) (env : GoEnv) (payload : Token) :
    Except VErr Unit :=
  if wrapInt64 (payload.IssuedAt - clockSkewSeconds) > env.nowUnix then
    Except.error (VErr.issuedAtFuture payload.IssuedAt)
  else if wrapInt64 (payload.Expires + clockSkewSeconds) < env.nowUnix then
    Except.error (VErr.expiredAt payload.Expires)
  else Except.ok ()

/-- `verifyJWTSignature` (token_verifier.go:217-227): digest the first
two segments joined by `.`, base64url-decode the third, verify with the
key. Go indexes `parts[0..2]` directly (it would panic on a shorter
slice); the model totalises the indexing with `getD`, and the only
caller inside `VerifyToken` is proved to pass exactly three segments. -/
def verifyJWTSignature (env : GoEnv) (parts : List String) (k : publicKey) :
    Except VErr Unit :=
  match GoEnv.b64UrlDecode env (parts.getD 2 "") with
  | Except.error e => Except.error e
  | Except.ok signature =>
    if GoEnv.rsaVerifyPKCS1v15 env k.Key
        (GoEnv.sha256 env (parts.getD 0 "" ++ "." ++ parts.getD 1 "")) signature then
      Except.ok ()
    else Except.error VErr.rsaVerifyFailed

/-- `tokenVerifier.verifySignature` (token_verifier.go:174-200). The Go
loop sets `verified` on the first key that passes the kid filter and
verifies; `List.any` computes the same boolean. -/
def verifySignature (tv : tokenVerifier) (env : GoEnv) (token : String) :
    Except VErr Unit :=
  match GoEnv.decodeHeader env ((goSplit token '.').getD 0 "") with
  | Except.error e => Except.error e
  | Except.ok h =>
    match GoEnv.keysResult env with
    | Except.error e => Except.error e
    | Except.ok keys =>
      if keys.any (fun k =>
          (h.KeyID == "" || h.KeyID == k.Kid)
            && exOk (verifyJWTSignature env (goSplit token '.') k)) then
        Except.ok ()
      else Except.error VErr.signatureVerifyFailed

/-- `tokenVerifier.VerifyToken` (token_verifier.go:78-103). -/
def VerifyToken (tv : tokenVerifier) (env : GoEnv) (token : String) :
    Except VErr Token :=
  if tv.projectID = "" then Except.error VErr.projectIDUnavailable
  else if token = "" then Except.error VErr.emptyTokenString
  else
    match verifyContent tv env token with
    | Except.error e => Except.error (VErr.contentWrapped e)
    | Except.ok payload =>
      match verifyTimestamps tv env payload with
      | Except.error e => Except.error e
      | Except.ok _ =>
        match verifySignature tv env token with
        | Except.error e => Except.error e
        | Except.ok _ => Except.ok payload

/-- `httpKeySource` struct (token_verifier.go:244-250), minus the HTTP
client and the mutex (see the module comment). `ExpiryTime` is an
instant in nanoseconds. -/
structure httpKeySource where
  KeyURI : String
  CachedKeys : List publicKey
  ExpiryTime : Int
  deriving Repr, DecidableEq

/-- One HTTP response as seen by `refreshKeys`: status code, fully read
body, and the `cache-control` header value (`Header.Get` returns the
empty string when the header is absent). -/
structure httpResponse where
  StatusCode : Nat
  Body : String
  CacheControl : String
  deriving Repr, DecidableEq

/-- External effects of one `refreshKeys` call: the possible
`http.NewRequest` failure, the combined outcome of `HTTPClient.Do` plus
`ioutil.ReadAll` (both just propagate their error), the abstract
`parsePublicKeys` (JSON + PEM + X.509, crypto left abstract), and the
current instant in nanoseconds. -/
structure KeyEnv where
  newRequestError : Option VErr
  doResult : Except VErr httpResponse
  parsePublicKeys : String → Except VErr (List publicKey)
  nowNanos : Int

/-- `httpKeySource.hasExpired` (token_verifier.go:275-277):
`time.Now().After(k.ExpiryTime)`, a strict comparison. -/
def hasExpired (env : KeyEnv) (k : httpKeySource) : Bool :=
  decide (k.ExpiryTime < KeyEnv.nowNanos env)

/-- Decimal digit accumulation for `parseInt64`; `none` on any
non-digit character. -/
def parseDigits : Nat → List Char → Option Nat
  | acc, [] => some acc
  | acc, c :: t =>
    if c.isDigit then parseDigits (acc * 10 + (c.toNat - 48)) t else none

/-- `strconv.ParseInt(s, 10, 64)`: an optionally signed non-empty run
of decimal digits whose value fits in a signed 64-bit integer. -/
def parseInt64 (s : String) : Option Int :=
  match s.data with
  | [] => none
  | '+' :: rest =>
    match rest with
    | [] => none
    | _ =>
      match parseDigits 0 rest with
      | some n => if n < 2 ^ 63 then some (n : Int) else none
      | none => none
  | '-' :: rest =>
    match rest with
    | [] => none
    | _ =>
      match parseDigits 0 rest with
      | some n => if n ≤ 2 ^ 63 then some (-(n : Int)) else none
      | none => none
  | l =>
    match parseDigits 0 l with
    | some n => if n < 2 ^ 63 then some (n : Int) else none
    | none => none

/-- The loop body of `findMaxAge` (token_verifier.go:349-360) over the
comma-separated parts of the header value. In a part that starts with
`max-age=`, the first `=` is the one ending that literal, so
`value[sep+1:]` is `value.drop 8`. Returns the parsed seconds. -/
def findMaxAgeList : List String → Except VErr Int
  | [] => Except.error VErr.missingMaxAge
  | v :: rest =>
    if goHasPrefix (goTrim v) "max-age=" then
      match parseInt64 (goDrop (goTrim v) 8) with
      | some seconds => Except.ok seconds
      | none => Except.error (VErr.parseIntFailure (goDrop (goTrim v) 8))
    else findMaxAgeList rest

/-- `findMaxAge` (token_verifier.go:347-362). -/
def findMaxAge (cacheControl : String) : Except VErr Int :=
  findMaxAgeList (goSplit cacheControl ',')

/-- `httpKeySource.refreshKeys` (token_verifier.go:279-311), as a state
transformer. Note the very first Go statement `k.CachedKeys = nil`:
every failure path leaves the cache empty. On success the expiry is
`now + seconds * time.Second` (nanosecond instants). -/
def refreshKeys (env : KeyEnv) (k : httpKeySource) :
    httpKeySource × Except VErr Unit :=
  match KeyEnv.newRequestError env with
  | some e => ({ k with CachedKeys := [] }, Except.error e)
  | none =>
    match KeyEnv.doResult env with
    | Except.error e => ({ k with CachedKeys := [] }, Except.error e)
    | Except.ok resp =>
      if resp.StatusCode ≠ 200 then
        ({ k with CachedKeys := [] },
          Except.error (VErr.invalidResponse resp.StatusCode resp.Body))
      else
        match KeyEnv.parsePublicKeys env resp.Body with
        | Except.error e => ({ k with CachedKeys := [] }, Except.error e)
        | Except.ok newKeys =>
          match findMaxAge resp.CacheControl with
          | Except.error e => ({ k with CachedKeys := [] }, Except.error e)
          | Except.ok seconds =>
            ({ k with
                CachedKeys := newKeys
                ExpiryTime := KeyEnv.nowNanos env + seconds * 1000000000 },
              Except.ok ())

/-- The refresh guard of `Keys` (token_verifier.go:265):
`len(k.CachedKeys) == 0 || k.hasExpired()`. -/
def keysTriggersRefresh (env : KeyEnv) (k : httpKeySource) : Bool :=
  (k.CachedKeys).length == 0 || hasExpired env k

/-- `httpKeySource.Keys` (token_verifier.go:262-272): refresh when the
guard holds; after a failed refresh, return the error only when the
(post-refresh) cache is empty, otherwise return the cached keys. -/
def Keys (env : KeyEnv) (k : httpKeySource) :
    httpKeySource × Except VErr (List publicKey) :=
  if keysTriggersRefresh env k then
    match refreshKeys env k with
    | (k2, Except.error e) =>
      if (k2.CachedKeys).length = 0 then (k2, Except.error e)
      else (k2, Except.ok k2.CachedKeys)
    | (k2, Except.ok _) => (k2, Except.ok k2.CachedKeys)
  else (k, Except.ok k.CachedKeys)

/-! ## Concrete fixtures

Closed values used by the counterexamples and witnesses below. `env0`
is an environment in which every external primitive succeeds, so that
`VerifyToken` accepts the token `"a.b.c"`. -/

def tv0 : tokenVerifier :=
  { shortName := "ID token"
    articledShortName := "an ID token"
    docURL := "https://firebase.google.com/docs/auth/admin/verify-id-tokens"
    projectID := "proj"
    issuerPrefix := idTokenIssuerPrefix }

def fb0 : FirebaseInfo := { SignInProvider := "", Tenant := "", Identities := [] }

def h0 : jwtHeader := { Algorithm := "RS256", Typ := "JWT", KeyID := "kid1" }

def p0 : Token :=
  { AuthTime := 0
    Issuer := "https://securetoken.google.com/proj"
    Audience := "proj"
    Expires := 2000
    IssuedAt := 900
    Subject := "user1"
    UID := ""
    Firebase := fb0
    Claims := [] }

def rawClaims0 : List (String × JsonVal) :=
  [("sub", JsonVal.str "user1"), ("role", JsonVal.str "admin")]

def key0 : publicKey := { Kid := "kid1", Key := { N := 5, E := 3 } }

def env0 : GoEnv :=
  { decodeHeader := fun _ => Except.ok h0
    decodeToken := fun _ => Except.ok p0
    decodeMap := fun _ => Except.ok rawClaims0
    b64UrlDecode := fun _ => Except.ok [1, 2]
    sha256 := fun _ => [9]
    rsaVerifyPKCS1v15 := fun _ _ _ => true
    keysResult := Except.ok [key0]
    nowUnix := 1000 }

def tok0 : String := "a.b.c"

/-- The token `VerifyToken tv0 env0 tok0` returns. -/
def t0 : Token :=
  { p0 with UID := p0.Subject, Claims := removeStandardClaims rawClaims0 }

/-- A payload whose expiry is in the future but whose issued-at is more
than the 300-second skew in the future of `env0.nowUnix = 1000`. -/
def p4 : Token := { p0 with IssuedAt := 1400 }

/-- A key source whose cache is non-empty and stale at instant 100. -/
def ks1 : httpKeySource := { KeyURI := "u", CachedKeys := [key0], ExpiryTime := 50 }

/-- A key environment whose HTTP fetch fails. -/
def kenv1 : KeyEnv :=
  { newRequestError := none
    doResult := Except.error (VErr.httpDoFailed "net")
    parsePublicKeys := fun _ => Except.ok []
    nowNanos := 100 }

/-- A key source whose cache is non-empty and whose expiry equals the
current instant of `kenv3`. -/
def ks3 : httpKeySource := { KeyURI := "u", CachedKeys := [key0], ExpiryTime := 100 }

/-- A key environment at instant 100 whose HTTP fetch fails. -/
def kenv3 : KeyEnv :=
  { newRequestError := none
    doResult := Except.error (VErr.httpDoFailed "down")
    parsePublicKeys := fun _ => Except.ok []
    nowNanos := 100 }

/-- A key source whose cache is non-empty and still fresh at instant
100. -/
def ksFresh : httpKeySource := { KeyURI := "u", CachedKeys := [key0], ExpiryTime := 200 }

/-- A 200 response with parseable key content and a cache-control
header that carries no max-age directive. -/
def resp8 : httpResponse :=
  { StatusCode := 200, Body := "keyjson", CacheControl := "public, no-cache" }

/-- A key environment returning `resp8`, with key parsing succeeding. -/
def kenv8 : KeyEnv :=
  { newRequestError := none
    doResult := Except.ok resp8
    parsePublicKeys := fun _ => Except.ok [key0]
    nowNanos := 100 }

/-! ## Helper lemmas -/

/-- Wrapping is the identity on values already inside the int64
range. -/
theorem wrapInt64_eq_self (n : Int) (hlo : -(2 ^ 63) ≤ n) (hhi : n < 2 ^ 63) :
    wrapInt64 n = n := by
  unfold wrapInt64
  omega

theorem exOk_true_iff {e a : Type} (r : Except e a) :
    exOk r = true ↔ ∃ x, r = Except.ok x := by
  cases r <;> simp [exOk]

theorem exOk_unit_iff {e : Type} (r : Except e Unit) :
    exOk r = true ↔ r = Except.ok () := by
  cases r with
  | ok x => cases x; simp [exOk]
  | error err => simp [exOk]

/-- Inversion of `verifyContent` success: the split had exactly three
segments, both decodes succeeded, the key ID was non-empty, and the
returned token is the typed payload with `UID := Subject` and the
cleaned generic claim map. -/
theorem verifyContent_ok_inv {tv : tokenVerifier} {env : GoEnv} {token : String}
    {t : Token} (hok : verifyContent tv env token = Except.ok t) :
    (goSplit token '.').length = 3 ∧
    ∃ header payload customClaims,
      GoEnv.decodeHeader env ((goSplit token '.').getD 0 "") = Except.ok header ∧
      jwtHeader.KeyID header ≠ "" ∧
      GoEnv.decodeToken env ((goSplit token '.').getD 1 "") = Except.ok payload ∧
      GoEnv.decodeMap env ((goSplit token '.').getD 1 "") = Except.ok customClaims ∧
      t = { payload with
              UID := payload.Subject
              Claims := removeStandardClaims customClaims } := by
  unfold verifyContent at hok
  split at hok
  · exact absurd hok (by simp)
  next hlen =>
    split at hok
    next err heq => exact absurd hok (by simp)
    next header heq =>
      split at hok
      next err heq2 => exact absurd hok (by simp)
      next payload heq2 =>
        split at hok
        · split at hok <;> exact absurd hok (by simp)
        next hkid =>
          split at hok
          · exact absurd hok (by simp)
          next halg =>
            split at hok
            · exact absurd hok (by simp)
            next haud =>
              split at hok
              · exact absurd hok (by simp)
              next hiss =>
                split at hok
                · exact absurd hok (by simp)
                next hsub =>
                  split at hok
                  · exact absurd hok (by simp)
                  next hlong =>
                    split at hok
                    next err heqm => exact absurd hok (by simp)
                    next customClaims heqm =>
                      refine ⟨by omega, header, payload, customClaims,
                        heq, hkid, heq2, heqm, ?_⟩
                      simpa using hok.symm

/-- Inversion of `VerifyToken` success: the configuration and token
were non-empty and all three stages succeeded, the returned token being
the one `verifyContent` produced. -/
theorem verifyToken_ok_inv {tv : tokenVerifier} {env : GoEnv} {token : String}
    {t : Token} (hok : VerifyToken tv env token = Except.ok t) :
    tv.projectID ≠ "" ∧ token ≠ "" ∧
    verifyContent tv env token = Except.ok t ∧
    verifyTimestamps tv env t = Except.ok () ∧
    verifySignature tv env token = Except.ok () := by
  unfold VerifyToken at hok
  split at hok
  · exact absurd hok (by simp)
  next hp =>
    split at hok
    · exact absurd hok (by simp)
    next ht =>
      split at hok
      next err heq => exact absurd hok (by simp)
      next payload heq =>
        split at hok
        next err heq2 => exact absurd hok (by simp)
        next u heq2 =>
          split at hok
          next err heq3 => exact absurd hok (by simp)
          next u2 heq3 =>
            cases u; cases u2
            have hpt : payload = t := by simpa using hok
            subst hpt
            exact ⟨hp, ht, heq, heq2, heq3⟩

theorem mem_removeStandardClaims (p : String × JsonVal) (m : List (String × JsonVal)) :
    p ∈ removeStandardClaims m ↔ p ∈ m ∧ ¬ p.fst ∈ standardClaims := by
  simp [removeStandardClaims, standardClaims, deleteClaim,
    List.mem_filter, bne_iff_ne, and_assoc]
  tauto

theorem containsKey_removeStandardClaims (m : List (String × JsonVal)) (name : String) :
    containsKey (removeStandardClaims m) name = true ↔
      containsKey m name = true ∧ ¬ name ∈ standardClaims := by
  simp only [containsKey, List.any_eq_true, beq_iff_eq]
  constructor
  · rintro ⟨p, hp, rfl⟩
    rcases (mem_removeStandardClaims p m).1 hp with ⟨hm, hstd⟩
    exact ⟨⟨p, hm, rfl⟩, hstd⟩
  · rintro ⟨⟨p, hm, rfl⟩, hstd⟩
    exact ⟨p, (mem_removeStandardClaims p m).2 ⟨hm, hstd⟩, rfl⟩

/-- A failed `refreshKeys` always leaves the cache empty: the Go code
clears `CachedKeys` before fetching and repopulates it only on the
success path. -/
theorem refreshKeys_error_clears {env : KeyEnv} {k k2 : httpKeySource} {e : VErr}
    (hrk : refreshKeys env k = (k2, Except.error e)) : k2.CachedKeys = [] := by
  unfold refreshKeys at hrk
  split at hrk
  · simp_all [Prod.mk.injEq]
    rcases hrk with ⟨h1, h2⟩
    rw [← h1]
  · split at hrk
    · simp only [Prod.mk.injEq] at hrk
      rw [← hrk.1]
    · split at hrk
      · simp only [Prod.mk.injEq] at hrk
        rw [← hrk.1]
      · split at hrk
        · simp only [Prod.mk.injEq] at hrk
          rw [← hrk.1]
        · split at hrk
          · simp only [Prod.mk.injEq] at hrk
            rw [← hrk.1]
          · simp only [Prod.mk.injEq] at hrk
            exact absurd hrk.2 (by simp)

/-- When no comma-separated part of the header value starts with
`max-age=`, the `findMaxAge` loop falls through to the missing-max-age
error. -/
theorem findMaxAgeList_missing (l : List String)
    (h : ∀ part ∈ l, goHasPrefix (goTrim part) "max-age=" = false) :
    findMaxAgeList l = Except.error VErr.missingMaxAge := by
  induction l with
  | nil => rfl
  | cons a t ih =>
    have ha := h a (by simp)
    simp only [findMaxAgeList, ha]
    simp only [Bool.false_eq_true, if_false]
    exact ih (fun p hp => h p (by simp [hp]))

/-! ## Claims -/

/-- C1 counterexample: with a non-empty but stale cache (`ks1`: one key,
expiry 50, now 100) and a failing fetch (`kenv1`), `Keys` does NOT
return the previously cached key set with no error, as the claim
states; it propagates the fetch error. -/
theorem C1_counterexample :
    ks1.CachedKeys ≠ [] ∧ hasExpired kenv1 ks1 = true ∧
    (refreshKeys kenv1 ks1).2 = Except.error (VErr.httpDoFailed "net") ∧
    (Keys kenv1 ks1).2 = Except.error (VErr.httpDoFailed "net") ∧
    (Keys kenv1 ks1).2 ≠ Except.ok ks1.CachedKeys := by
  refine ⟨by decide, rfl, rfl, rfl, ?_⟩
  rw [show (Keys kenv1 ks1).2 = Except.error (VErr.httpDoFailed "net") from rfl]
  simp

/-- C1 (amended): whenever the `Keys` guard triggers a refresh and the
refresh fails, `Keys` returns that error regardless of whether the
cache was previously non-empty — `refreshKeys` clears `CachedKeys`
before fetching, so the stale-cache fallback branch of `Keys` never
fires on a failed refresh. (In particular, with an empty cache the
error propagates, as the claim also states.) -/
theorem C1_keys_propagates_refresh_error (env : KeyEnv) (k : httpKeySource)
    (e : VErr) (htrig : keysTriggersRefresh env k = true)
    (href : (refreshKeys env k).2 = Except.error e) :
    (Keys env k).2 = Except.error e := by
  rcases hrk : refreshKeys env k with ⟨k2, r⟩
  rw [hrk] at href
  simp only at href
  subst href
  have hclr := refreshKeys_error_clears hrk
  simp [Keys, htrig, hrk, hclr]

/-- C1 witness: the amended theorem applied at the concrete stale cache
and failing fetch. -/
theorem C1_witness : (Keys kenv1 ks1).2 = Except.error (VErr.httpDoFailed "net") :=
  C1_keys_propagates_refresh_error kenv1 ks1 (VErr.httpDoFailed "net") rfl rfl

/-- C3 counterexample: at a time exactly equal to the cached expiry
(`kenv3.nowNanos = ks3.ExpiryTime = 100`) with a non-empty cache, the
claim says a refresh fetch is triggered; in fact the guard is false and
`Keys` returns the cached set with the state untouched, succeeding even
though the fetch in `kenv3` would fail. -/
theorem C3_counterexample :
    ks3.CachedKeys ≠ [] ∧ KeyEnv.nowNanos kenv3 = ks3.ExpiryTime ∧
    keysTriggersRefresh kenv3 ks3 = false ∧
    Keys kenv3 ks3 = (ks3, Except.ok ks3.CachedKeys) := by
  exact ⟨by decide, rfl, rfl, rfl⟩

/-- C3 (amended): with a non-empty cached key set and expiry E, a
`Keys` call at a time at or before E (now ≤ E) returns the cached set
without triggering the refresh fetch (the guard at
token_verifier.go:265 is false and the state is unchanged), and a call
strictly after E (E < now) triggers the refresh. -/
theorem C3_cache_freshness (env : KeyEnv) (k : httpKeySource)
    (hne : k.CachedKeys ≠ []) :
    (KeyEnv.nowNanos env ≤ k.ExpiryTime →
        keysTriggersRefresh env k = false ∧
        Keys env k = (k, Except.ok k.CachedKeys)) ∧
    (k.ExpiryTime < KeyEnv.nowNanos env →
        keysTriggersRefresh env k = true) := by
  constructor
  · intro hle
    have h1 : ((k.CachedKeys).length == 0) = false := by
      simp [List.length_eq_zero, hne]
    have h2 : hasExpired env k = false := by
      simp only [hasExpired, decide_eq_false_iff_not]
      omega
    have hguard : keysTriggersRefresh env k = false := by
      simp [keysTriggersRefresh, h1, h2]
    exact ⟨hguard, by simp [Keys, hguard]⟩
  · intro hlt
    simp only [keysTriggersRefresh, hasExpired, Bool.or_eq_true,
      decide_eq_true_eq]
    exact Or.inr hlt

/-- C3 witness: the amended theorem applied at the concrete fresh cache
(expiry 200, now 100). -/
theorem C3_witness :
    keysTriggersRefresh kenv3 ksFresh = false ∧
    Keys kenv3 ksFresh = (ksFresh, Except.ok ksFresh.CachedKeys) :=
  (C3_cache_freshness kenv3 ksFresh (by decide)).1 (by decide)

/-- C2: `VerifyToken` returns a token only if content validation, then
timestamp validation, then signature validation all succeed on that
token, and each earlier failure short-circuits to an error: a content
error yields the wrapped content error before the later stages matter,
a timestamp error yields that error, and a signature error yields that
error. -/
theorem C2_verify_token_stage_order (tv : tokenVerifier) (env : GoEnv)
    (token : String) :
    (∀ t, VerifyToken tv env token = Except.ok t →
        tv.projectID ≠ "" ∧ token ≠ "" ∧
        verifyContent tv env token = Except.ok t ∧
        verifyTimestamps tv env t = Except.ok () ∧
        verifySignature tv env token = Except.ok ()) ∧
    (∀ e, tv.projectID ≠ "" → token ≠ "" →
        verifyContent tv env token = Except.error e →
        VerifyToken tv env token = Except.error (VErr.contentWrapped e)) ∧
    (∀ p e, tv.projectID ≠ "" → token ≠ "" →
        verifyContent tv env token = Except.ok p →
        verifyTimestamps tv env p = Except.error e →
        VerifyToken tv env token = Except.error e) ∧
    (∀ p e, tv.projectID ≠ "" → token ≠ "" →
        verifyContent tv env token = Except.ok p →
        verifyTimestamps tv env p = Except.ok () →
        verifySignature tv env token = Except.error e →
        VerifyToken tv env token = Except.error e) := by
  refine ⟨fun t h => verifyToken_ok_inv h, ?_, ?_, ?_⟩
  · intro e hp ht hc
    unfold VerifyToken
    rw [if_neg hp, if_neg ht, hc]
  · intro p e hp ht hc hts
    unfold VerifyToken
    rw [if_neg hp, if_neg ht]
    simp only [hc, hts]
  · intro p e hp ht hc hts hs
    unfold VerifyToken
    rw [if_neg hp, if_neg ht]
    simp only [hc, hts, hs]

/-- C2 witness: applied at the concrete accepting run
`VerifyToken tv0 env0 tok0 = ok t0`. -/
theorem C2_witness :
    verifyContent tv0 env0 tok0 = Except.ok t0 ∧
    verifyTimestamps tv0 env0 t0 = Except.ok () ∧
    verifySignature tv0 env0 tok0 = Except.ok () := by
  have h := (C2_verify_token_stage_order tv0 env0 tok0).1 t0 rfl
  exact ⟨h.2.2.1, h.2.2.2.1, h.2.2.2.2⟩

/-- C4 counterexample: the payload `p4` has its expiry (2000) in the
future of `env0.nowUnix` (1000), yet timestamp validation fails,
because its issued-at (1400) is more than 300 seconds in the future —
contradicting the claim that any payload with a future expiry passes
this stage regardless of issued-at. -/
theorem C4_counterexample :
    GoEnv.nowUnix env0 < Token.Expires p4 ∧
    verifyTimestamps tv0 env0 p4 = Except.error (VErr.issuedAtFuture 1400) :=
  ⟨by decide, rfl⟩

/-- C4 (amended): timestamp validation fails if and only if, in Go's
wrapping int64 arithmetic, issued-at minus the 300-second skew exceeds
now or expiry plus the skew is below now; and any payload whose expiry
is in the future AND whose issued-at is at most 300 seconds in the
future of now passes this stage, provided neither `issued-at - 300`
nor `expiry + 300` overflows the int64 range. -/
theorem C4_timestamp_validation (tv : tokenVerifier) (env : GoEnv) (p : Token) :
    (exOk (verifyTimestamps tv env p) = false ↔
        wrapInt64 (Token.IssuedAt p - clockSkewSeconds) > GoEnv.nowUnix env ∨
        wrapInt64 (Token.Expires p + clockSkewSeconds) < GoEnv.nowUnix env) ∧
    (Token.IssuedAt p - clockSkewSeconds ≤ GoEnv.nowUnix env →
        GoEnv.nowUnix env < Token.Expires p →
        -(2 ^ 63) ≤ Token.IssuedAt p - clockSkewSeconds →
        Token.IssuedAt p - clockSkewSeconds < 2 ^ 63 →
        -(2 ^ 63) ≤ Token.Expires p + clockSkewSeconds →
        Token.Expires p + clockSkewSeconds < 2 ^ 63 →
        verifyTimestamps tv env p = Except.ok ()) := by
  constructor
  · simp only [verifyTimestamps]
    split_ifs with h1 h2
    · simpa [exOk] using Or.inl h1
    · simpa [exOk] using Or.inr h2
    · simp [exOk, h1, h2]
  · intro hi he hlo1 hhi1 hlo2 hhi2
    have hs : clockSkewSeconds = 300 := rfl
    have w1 : wrapInt64 (Token.IssuedAt p - clockSkewSeconds) =
        Token.IssuedAt p - clockSkewSeconds := wrapInt64_eq_self _ hlo1 hhi1
    have w2 : wrapInt64 (Token.Expires p + clockSkewSeconds) =
        Token.Expires p + clockSkewSeconds := wrapInt64_eq_self _ hlo2 hhi2
    simp only [verifyTimestamps, w1, w2]
    rw [if_neg (by omega), if_neg (by omega)]

/-- C4 witness: the amended theorem applied at the concrete payload
`p0` (issued-at 900, expiry 2000, now 1000), whose skewed timestamps
are far from the int64 boundary. -/
theorem C4_witness : verifyTimestamps tv0 env0 p0 = Except.ok () :=
  (C4_timestamp_validation tv0 env0 p0).2 (by decide) (by decide)
    (by decide) (by decide) (by decide) (by decide)

/-- C7 counterexample: the empty token string splits into one segment,
not three, yet `VerifyToken` fails with the empty-token error, not the
malformed-token (incorrect number of segments) error the claim
requires for every such string. -/
theorem C7_counterexample :
    (goSplit "" '.').length ≠ 3 ∧ tokenVerifier.projectID tv0 ≠ "" ∧
    VerifyToken tv0 env0 "" = Except.error VErr.emptyTokenString ∧
    VerifyToken tv0 env0 "" ≠
      Except.error (VErr.contentWrapped VErr.incorrectSegments) := by
  refine ⟨by decide, by decide, rfl, ?_⟩
  rw [show VerifyToken tv0 env0 "" = Except.error VErr.emptyTokenString from rfl]
  simp

/-- C7 (amended): for a verifier with a configured project ID and every
NON-empty token string that does not split on '.' into exactly three
segments, `VerifyToken` fails with the (wrapped) incorrect-number-of-
segments error; the empty token string instead fails with the
empty-token error (see the counterexample). -/
theorem C7_malformed_token_error (tv : tokenVerifier) (env : GoEnv)
    (token : String) (hp : tokenVerifier.projectID tv ≠ "") (ht : token ≠ "")
    (hseg : (goSplit token '.').length ≠ 3) :
    VerifyToken tv env token =
      Except.error (VErr.contentWrapped VErr.incorrectSegments) := by
  have hc : verifyContent tv env token = Except.error VErr.incorrectSegments := by
    unfold verifyContent
    rw [if_pos hseg]
  unfold VerifyToken
  rw [if_neg hp, if_neg ht, hc]

/-- C7 witness: the amended theorem applied at the two-segment token
string "a.b". -/
theorem C7_witness :
    VerifyToken tv0 env0 "a.b" =
      Except.error (VErr.contentWrapped VErr.incorrectSegments) :=
  C7_malformed_token_error tv0 env0 "a.b" (by decide) (by decide) (by decide)

/-- C9: every token returned by a successful `VerifyToken` call has its
UID field equal to its Subject field: `verifyContent` copies the
subject into UID (token_verifier.go:151). -/
theorem C9_uid_equals_subject (tv : tokenVerifier) (env : GoEnv)
    (token : String) (t : Token)
    (hok : VerifyToken tv env token = Except.ok t) :
    Token.UID t = Token.Subject t := by
  rcases verifyToken_ok_inv hok with ⟨-, -, hc, -, -⟩
  rcases verifyContent_ok_inv hc with ⟨-, header, payload, cc, -, -, -, -, hteq⟩
  rw [hteq]

/-- C9 witness: applied at the concrete accepting run. -/
theorem C9_witness : Token.UID t0 = Token.Subject t0 :=
  C9_uid_equals_subject tv0 env0 tok0 t0 rfl

/-- C5: given a decoded header and a key set from the key source,
signature validation succeeds exactly when some key of the set passing
the kid filter (empty token kid, or kid equal to the key's) verifies;
per key, verification means base64url-decoding the third segment and
checking the SHA-256 digest of "header-segment.claims-segment" with
RSA-PKCS1v15 under that key; and when no candidate verifies the result
is the signature-verification error. -/
theorem C5_signature_validation (tv : tokenVerifier) (env : GoEnv) (token : String)
    (h : jwtHeader) (keys : List publicKey)
    (hh : GoEnv.decodeHeader env ((goSplit token '.').getD 0 "") = Except.ok h)
    (hk : GoEnv.keysResult env = Except.ok keys) :
    (verifySignature tv env token = Except.ok () ↔
        ∃ k ∈ keys,
          (jwtHeader.KeyID h = "" ∨ jwtHeader.KeyID h = publicKey.Kid k) ∧
          verifyJWTSignature env (goSplit token '.') k = Except.ok ()) ∧
    (∀ k : publicKey,
        (verifyJWTSignature env (goSplit token '.') k = Except.ok () ↔
          ∃ sig,
            GoEnv.b64UrlDecode env ((goSplit token '.').getD 2 "") = Except.ok sig ∧
            GoEnv.rsaVerifyPKCS1v15 env (publicKey.Key k)
              (GoEnv.sha256 env ((goSplit token '.').getD 0 "" ++ "." ++
                (goSplit token '.').getD 1 "")) sig = true)) ∧
    ((¬ ∃ k ∈ keys,
          (jwtHeader.KeyID h = "" ∨ jwtHeader.KeyID h = publicKey.Kid k) ∧
          verifyJWTSignature env (goSplit token '.') k = Except.ok ()) →
      verifySignature tv env token = Except.error VErr.signatureVerifyFailed) := by
  have hsig : verifySignature tv env token =
      (if keys.any (fun k =>
          (jwtHeader.KeyID h == "" || jwtHeader.KeyID h == publicKey.Kid k)
            && exOk (verifyJWTSignature env (goSplit token '.') k)) then
        Except.ok ()
      else Except.error VErr.signatureVerifyFailed) := by
    unfold verifySignature
    rw [hh, hk]
  have hiff : (keys.any (fun k =>
      (jwtHeader.KeyID h == "" || jwtHeader.KeyID h == publicKey.Kid k)
        && exOk (verifyJWTSignature env (goSplit token '.') k))) = true ↔
      ∃ k ∈ keys,
        (jwtHeader.KeyID h = "" ∨ jwtHeader.KeyID h = publicKey.Kid k) ∧
        verifyJWTSignature env (goSplit token '.') k = Except.ok () := by
    simp only [List.any_eq_true, Bool.and_eq_true, Bool.or_eq_true, beq_iff_eq,
      exOk_unit_iff]
  refine ⟨?_, ?_, ?_⟩
  · rw [hsig]
    by_cases hany : (keys.any (fun k =>
        (jwtHeader.KeyID h == "" || jwtHeader.KeyID h == publicKey.Kid k)
          && exOk (verifyJWTSignature env (goSplit token '.') k))) = true
    · simp only [hany, if_true, true_iff]
      exact hiff.1 hany
    · rw [Bool.not_eq_true] at hany
      rw [← hiff]
      simp [hany]
  · intro k
    unfold verifyJWTSignature
    cases hb : GoEnv.b64UrlDecode env ((goSplit token '.').getD 2 "") with
    | error err => simp
    | ok sig =>
      by_cases hv : GoEnv.rsaVerifyPKCS1v15 env (publicKey.Key k)
          (GoEnv.sha256 env ((goSplit token '.').getD 0 "" ++ "." ++
            (goSplit token '.').getD 1 "")) sig = true
      · simp [hv]
      · rw [Bool.not_eq_true] at hv
        simp [hv]
  · intro hnone
    rw [hsig]
    have hfalse : (keys.any (fun k =>
        (jwtHeader.KeyID h == "" || jwtHeader.KeyID h == publicKey.Kid k)
          && exOk (verifyJWTSignature env (goSplit token '.') k))) = false := by
      cases hb2 : (keys.any (fun k =>
          (jwtHeader.KeyID h == "" || jwtHeader.KeyID h == publicKey.Kid k)
            && exOk (verifyJWTSignature env (goSplit token '.') k))) with
      | false => rfl
      | true => exact absurd (hiff.1 hb2) hnone
    simp [hfalse]

/-- C5 witness: with the concrete environment `env0`, the key `key0`
passes the kid filter via equality and verifies, so signature
validation succeeds. -/
theorem C5_witness : verifySignature tv0 env0 tok0 = Except.ok () :=
  (C5_signature_validation tv0 env0 tok0 h0 [key0] rfl rfl).1.mpr
    ⟨key0, by simp, Or.inr rfl, rfl⟩

/-- C6: for every token accepted by `VerifyToken`, a claim name is in
the returned token's open claims mapping exactly when it is a key of
the raw decoded claim map and is not one of the six registered claim
names (iss, aud, exp, iat, sub, uid). -/
theorem C6_open_claims (tv : tokenVerifier) (env : GoEnv) (token : String)
    (t : Token) (raw : List (String × JsonVal)) (name : String)
    (hok : VerifyToken tv env token = Except.ok t)
    (hraw : GoEnv.decodeMap env ((goSplit token '.').getD 1 "") = Except.ok raw) :
    (containsKey (Token.Claims t) name = true ↔
      containsKey raw name = true ∧ ¬ name ∈ standardClaims) := by
  rcases verifyToken_ok_inv hok with ⟨-, -, hc, -, -⟩
  rcases verifyContent_ok_inv hc with ⟨-, header, payload, cc, -, -, -, hmap, hteq⟩
  rw [hraw] at hmap
  have hcc : raw = cc := by simpa using hmap
  subst hcc
  rw [hteq]
  exact containsKey_removeStandardClaims raw name

/-- C6 witness: in the concrete accepting run, the custom claim "role"
survives into the open claims mapping. -/
theorem C6_witness :
    containsKey (Token.Claims t0) "role" = true ↔
      containsKey rawClaims0 "role" = true ∧ ¬ "role" ∈ standardClaims :=
  C6_open_claims tv0 env0 tok0 t0 rawClaims0 "role" rfl rfl

/-- C8: a refresh whose HTTP response has status 200 and parseable key
content but whose cache-control header has no part starting with
`max-age=` fails with the missing-max-age error; the expiry is left
unchanged (no fallback default) and the cache stays cleared. -/
theorem C8_missing_max_age (env : KeyEnv) (k : httpKeySource) (resp : httpResponse)
    (hreq : KeyEnv.newRequestError env = none)
    (hdo : KeyEnv.doResult env = Except.ok resp)
    (hst : httpResponse.StatusCode resp = 200)
    (hkeys : exOk (KeyEnv.parsePublicKeys env (httpResponse.Body resp)) = true)
    (hcc : ∀ part ∈ goSplit (httpResponse.CacheControl resp) ',',
        goHasPrefix (goTrim part) "max-age=" = false) :
    (refreshKeys env k).2 = Except.error VErr.missingMaxAge ∧
    (refreshKeys env k).1.ExpiryTime = k.ExpiryTime ∧
    (refreshKeys env k).1.CachedKeys = [] := by
  have hma : findMaxAge (httpResponse.CacheControl resp) =
      Except.error VErr.missingMaxAge := findMaxAgeList_missing _ hcc
  rcases (exOk_true_iff _).1 hkeys with ⟨ks, hks⟩
  unfold refreshKeys
  simp [hreq, hdo, hst, hks, findMaxAge] at hma ⊢
  simp [hma]

/-- C8 witness: applied at the concrete 200 response with cache-control
"public, no-cache". -/
theorem C8_witness :
    (refreshKeys kenv8 ks1).2 = Except.error VErr.missingMaxAge ∧
    (refreshKeys kenv8 ks1).1.ExpiryTime = httpKeySource.ExpiryTime ks1 ∧
    (refreshKeys kenv8 ks1).1.CachedKeys = [] :=
  C8_missing_max_age kenv8 ks1 resp8 rfl rfl rfl rfl (by decide)

/-- C10: whenever `verifyContent` has succeeded on a token string, the
re-split in `verifySignature` yields exactly three segments, the header
re-decode (the same function on the same segment) succeeds, and the
decoded key ID is non-empty — so the kid filter in the key loop
degenerates to the equality test and the try-every-key branch is
unreachable from `VerifyToken`. -/
theorem C10_signature_stage_preconditions (tv : tokenVerifier) (env : GoEnv)
    (token : String) (payload : Token)
    (hok : verifyContent tv env token = Except.ok payload) :
    (goSplit token '.').length = 3 ∧
    ∃ h, GoEnv.decodeHeader env ((goSplit token '.').getD 0 "") = Except.ok h ∧
      jwtHeader.KeyID h ≠ "" ∧
      ∀ k : publicKey,
        ((jwtHeader.KeyID h == "" || jwtHeader.KeyID h == publicKey.Kid k) =
          (jwtHeader.KeyID h == publicKey.Kid k)) := by
  rcases verifyContent_ok_inv hok with ⟨hlen, header, p2, cc, hh, hkid, -, -, -⟩
  refine ⟨hlen, header, hh, hkid, fun k => ?_⟩
  have hfalse : (jwtHeader.KeyID header == "") = false := by
    simp only [beq_eq_false_iff_ne, ne_eq]
    exact hkid
  simp [hfalse]

/-- C10 witness: applied at the concrete accepting run of
`verifyContent`. -/
theorem C10_witness :
    (goSplit tok0 '.').length = 3 ∧
    ∃ h, GoEnv.decodeHeader env0 ((goSplit tok0 '.').getD 0 "") = Except.ok h ∧
      jwtHeader.KeyID h ≠ "" ∧
      ∀ k : publicKey,
        ((jwtHeader.KeyID h == "" || jwtHeader.KeyID h == publicKey.Kid k) =
          (jwtHeader.KeyID h == publicKey.Kid k)) :=
  C10_signature_stage_preconditions tv0 env0 tok0 t0 rfl
